import Mathlib

/-!
Verification of the fixed-point quantization and Cairo-literal serialization
helpers of the MNIST notebook (`examples/mnist/mnist_pytorch.ipynb`).

The notebook defines three pure Python functions:

  def to_fixed_point(val, bits):
      return round(val * (2**bits))

  def mnist_image_to_fixed_point(data):
      return [to_fixed_point(val.item(), 16) for val in data]

  def generate_input_cairo(data):
      values = mnist_image_to_fixed_point(data)
      values = [f"FixedTrait::<FP16x16>::new({val}, {s})" for val in values]
          # where s is the text true if val < 0 and the text false otherwise
      return ",\n ".join(values)

We embed them shallowly: finite floating-point values are dyadic rationals,
so the value domain is `ℚ`; the `round` builtin of Python, on a float,
rounds the exact value of the float to the nearest integer with ties to
even, which is `pyRound` below.  A second embedding over `PyFloat` (which
adds NaN and the infinities to the finite values) makes the exception
behaviour of `round` explicit: `round` raises `ValueError` on NaN and
`OverflowError` on an infinity, which the `Except`-valued variants model
as `error`.
-/

set_option maxRecDepth 8000

unseal Rat.add Rat.mul Rat.sub Rat.inv

/-- The `round` builtin of Python on the exact (rational) value of a finite
float: round to the nearest integer, ties to the even neighbour. -/
def pyRound (x : ℚ) : ℤ :=
  if x - ⌊x⌋ < 1/2 then ⌊x⌋
  else if 1/2 < x - ⌊x⌋ then ⌊x⌋ + 1
  else if ⌊x⌋ % 2 = 0 then ⌊x⌋ else ⌊x⌋ + 1

/-- The scale factor `2**bits` of the notebook, for an arbitrary integer
exponent (in Python, `2**bits` is an int for `bits ≥ 0` and a float otherwise;
both denote the exact rational `2^bits`). -/
def pow2 (bits : ℤ) : ℚ :=
  if 0 ≤ bits then (2 : ℚ) ^ bits.toNat else ((2 : ℚ) ^ (-bits).toNat)⁻¹

/-- `to_fixed_point(val, bits) = round(val * (2**bits))`. -/
def to_fixed_point (val : ℚ) (bits : ℤ) : ℤ :=
  pyRound (val * pow2 bits)

/-- `mnist_image_to_fixed_point(data) = [to_fixed_point(val.item(), 16) for val in data]`;
`.item()` extracts the scalar held by a one-element tensor, so the embedding
receives the list of scalar values directly. -/
def mnist_image_to_fixed_point (data : List ℚ) : List ℤ :=
  data.map (fun val => to_fixed_point val 16)

/-- The literal built for one quantized value by the list comprehension in
`generate_input_cairo`:
`f"FixedTrait::<FP16x16>::new({val}, {s})"` with `s` the text `true` when
`val < 0` and the text `false` otherwise. -/
def fixedLiteral (val : ℤ) : String :=
  "FixedTrait::<FP16x16>::new(" ++ Int.repr val ++ ", " ++
    (if val < 0 then "true" else "false") ++ ")"

/-- The separator `",\n "` used by the final `join`. -/
def sepNL : String := ",\n "

/-- `generate_input_cairo(data)`: quantize, render each value as a literal,
join with `",\n "`. -/
def generate_input_cairo (data : List ℚ) : String :=
  String.intercalate sepNL ((mnist_image_to_fixed_point data).map fixedLiteral)

/-- The serialization as claim C2 words it: one literal
`FixedTrait::<FP16x16>::new({v}, {s})` per element, in input order, with
`v = to_fixed_point(element, 16)` and `s = "true"` iff `v < 0`, joined by
`",\n "`. -/
def generate_input_cairo_spec (data : List ℚ) : String :=
  String.intercalate sepNL (data.map (fun element =>
    "FixedTrait::<FP16x16>::new(" ++ Int.repr (to_fixed_point element 16) ++ ", " ++
      (if to_fixed_point element 16 < 0 then "true" else "false") ++ ")"))

/-! ## Exception-aware embedding over Python floats

Python floats are the finite dyadic rationals together with NaN and the two
infinities.  `round` raises `ValueError` on NaN and `OverflowError` on an
infinity; multiplying a finite float by the integer `2**bits` (with
`bits ≥ 0`) is exact except that a product beyond the largest finite double
overflows to an infinity. -/

/-- A Python float: a finite value (its exact rational), NaN, or ±infinity. -/
inductive PyFloat where
  | finite (q : ℚ)
  | nan
  | inf
  | neginf
deriving DecidableEq

/-- The largest finite IEEE-754 double, `(2^53 - 1) * 2^971 = 2^1024 - 2^971`. -/
def maxFloat : ℚ := (((2:ℕ) ^ (1024:ℕ) - (2:ℕ) ^ (971:ℕ) : ℕ) : ℚ)

/-- Float multiplication `val * (2**bits)` for `bits ≥ 0`: exact on finite
values except for overflow to an infinity; NaN and infinities propagate. -/
def mulPow2 : PyFloat → ℕ → PyFloat
  | .finite q, bits =>
    if maxFloat < q * (2:ℚ) ^ bits then .inf
    else if q * (2:ℚ) ^ bits < -maxFloat then .neginf
    else .finite (q * (2:ℚ) ^ bits)
  | .nan, _ => .nan
  | .inf, _ => .inf
  | .neginf, _ => .neginf

/-- The message of the `ValueError` that `round` raises on NaN. -/
def nanMsg : String := "cannot convert float NaN to integer"

/-- The message of the `OverflowError` that `round` raises on an infinity. -/
def infMsg : String := "cannot convert float infinity to integer"

/-- The `round` builtin on an arbitrary float: rounds finite values, raises on
NaN and the infinities. -/
def pyRoundE : PyFloat → Except String ℤ
  | .finite q => .ok (pyRound q)
  | .nan => .error nanMsg
  | .inf => .error infMsg
  | .neginf => .error infMsg

/-- `to_fixed_point` with the exception behaviour of `round` made explicit. -/
def to_fixed_pointE (val : PyFloat) (bits : ℕ) : Except String ℤ :=
  pyRoundE (mulPow2 val bits)

/-- `mnist_image_to_fixed_point` with exceptions explicit: the comprehension
evaluates left to right and the first exception propagates. -/
def mnist_image_to_fixed_pointE : List PyFloat → Except String (List ℤ)
  | [] => .ok []
  | val :: rest =>
    match to_fixed_pointE val 16 with
    | .error e => .error e
    | .ok z =>
      match mnist_image_to_fixed_pointE rest with
      | .error e => .error e
      | .ok zs => .ok (z :: zs)

/-- `generate_input_cairo` with exceptions explicit. -/
def generate_input_cairoE (data : List PyFloat) : Except String String :=
  match mnist_image_to_fixed_pointE data with
  | .error e => .error e
  | .ok values => .ok (String.intercalate sepNL (values.map fixedLiteral))

/-! ## Explicit-state embedding

The notebook cell may in principle read or write notebook globals or files;
the bodies of the three functions contain no such statement, so their state-passing
translation threads the world through unchanged. -/

/-- The observable state outside the three functions: the global bindings of
the notebook and the file system. -/
structure World where
  globals : List (String × String)
  files : List (String × String)

/-- State-passing translation of `to_fixed_point`: its body is the single
statement `return round(val * (2**bits))`, which touches no global and no
file. -/
def to_fixed_pointW (val : ℚ) (bits : ℤ) (w : World) : ℤ × World :=
  (to_fixed_point val bits, w)

/-- State-passing translation of `mnist_image_to_fixed_point`. -/
def mnist_image_to_fixed_pointW (data : List ℚ) (w : World) : List ℤ × World :=
  (mnist_image_to_fixed_point data, w)

/-- State-passing translation of `generate_input_cairo`: its three statements
build the value list, the literal list, and the joined string, touching no
global and no file. -/
def generate_input_cairoW (data : List ℚ) (w : World) : String × World :=
  (generate_input_cairo data, w)

/-! ## Helper lemmas -/

/-- `pyRound` lands within one half of its argument. -/
lemma pyRound_dist (x : ℚ) : |(pyRound x : ℚ) - x| ≤ 1/2 := by
  have h0 : (⌊x⌋ : ℚ) ≤ x := Int.floor_le x
  have h1 : x < ⌊x⌋ + 1 := Int.lt_floor_add_one x
  unfold pyRound
  split_ifs with hlt hgt hev
  · rw [abs_le]; constructor <;> linarith
  · push_cast
    rw [abs_le]; constructor <;> linarith
  · have heq : x - ⌊x⌋ = 1/2 := le_antisymm (not_lt.mp hgt) (not_lt.mp hlt)
    rw [abs_le]; constructor <;> linarith
  · have heq : x - ⌊x⌋ = 1/2 := le_antisymm (not_lt.mp hgt) (not_lt.mp hlt)
    push_cast
    rw [abs_le]; constructor <;> linarith

/-- `pyRound` is a nearest integer: no integer is strictly closer. -/
lemma pyRound_nearest (x : ℚ) (n : ℤ) : |(pyRound x : ℚ) - x| ≤ |(n : ℚ) - x| := by
  rcases eq_or_ne n (pyRound x) with h | h
  · rw [h]
  · have hne : n - pyRound x ≠ 0 := sub_ne_zero.mpr h
    have hone : (1 : ℤ) ≤ |n - pyRound x| := Int.one_le_abs hne
    have honeq : (1 : ℚ) ≤ |(n : ℚ) - (pyRound x : ℚ)| := by
      have h2 : ((1:ℤ) : ℚ) ≤ ((|n - pyRound x| : ℤ) : ℚ) := Int.cast_le.mpr hone
      push_cast at h2
      simpa using h2
    have htri : |(n : ℚ) - (pyRound x : ℚ)| ≤ |(n : ℚ) - x| + |x - (pyRound x : ℚ)| :=
      abs_sub_le _ _ _
    have hcomm : |x - (pyRound x : ℚ)| = |(pyRound x : ℚ) - x| := abs_sub_comm _ _
    have hdist := pyRound_dist x
    linarith

/-- On a natural exponent, `pow2` is the monoid power. -/
lemma pow2_natCast (bits : ℕ) : pow2 (bits : ℤ) = (2:ℚ) ^ bits := by
  unfold pow2
  rw [if_pos (Int.natCast_nonneg bits), Int.toNat_natCast]

/-- The literal built for a negative quantized value: the signed decimal
numeral together with the flag `"true"`. -/
lemma fixedLiteral_neg (v : ℤ) (h : v < 0) :
    fixedLiteral v = "FixedTrait::<FP16x16>::new(-" ++ (Nat.repr v.natAbs ++ ", true)") := by
  cases v with
  | ofNat k => exact absurd h (Int.not_lt.mpr (Int.ofNat_nonneg k))
  | negSucc m =>
    unfold fixedLiteral
    rw [if_pos h]
    simp only [String.append_assoc]
    rfl

/-- The literal built for a nonnegative quantized value: the unsigned decimal
numeral together with the flag `"false"`. -/
lemma fixedLiteral_nonneg (v : ℤ) (h : 0 ≤ v) :
    fixedLiteral v = "FixedTrait::<FP16x16>::new(" ++ (Nat.repr v.natAbs ++ ", false)") := by
  cases v with
  | negSucc m => exact absurd h (not_le.mpr (Int.negSucc_lt_zero m))
  | ofNat k =>
    unfold fixedLiteral
    rw [if_neg (Int.not_lt.mpr h)]
    simp only [String.append_assoc]
    rfl

/-- The float bound in its usual mantissa-times-exponent form. -/
lemma maxFloat_eq : maxFloat = ((2:ℚ) ^ (53:ℕ) - 1) * (2:ℚ) ^ (971:ℕ) := by
  have hle : (2:ℕ) ^ (971:ℕ) ≤ (2:ℕ) ^ (1024:ℕ) :=
    Nat.pow_le_pow_right (by norm_num) (by norm_num)
  unfold maxFloat
  push_cast [Nat.cast_sub hle]
  rw [sub_mul, one_mul, ← pow_add]

/-- A finite input whose scaled value stays within the float range is
quantized without an exception, to the same value as the pure embedding. -/
lemma to_fixed_pointE_ok (q : ℚ) (bits : ℕ) (h : |q| * (2:ℚ) ^ bits ≤ maxFloat) :
    to_fixed_pointE (PyFloat.finite q) bits = Except.ok (to_fixed_point q (bits : ℤ)) := by
  have hpos : (0:ℚ) < (2:ℚ) ^ bits := by positivity
  have hle : q * (2:ℚ) ^ bits ≤ maxFloat :=
    le_trans (mul_le_mul_of_nonneg_right (le_abs_self q) hpos.le) h
  have hge : -maxFloat ≤ q * (2:ℚ) ^ bits := by
    have hneg : -q * (2:ℚ) ^ bits ≤ |q| * (2:ℚ) ^ bits :=
      mul_le_mul_of_nonneg_right (neg_le_abs q) hpos.le
    nlinarith
  show pyRoundE
      (if maxFloat < q * (2:ℚ) ^ bits then PyFloat.inf
        else if q * (2:ℚ) ^ bits < -maxFloat then PyFloat.neginf
        else PyFloat.finite (q * (2:ℚ) ^ bits)) = _
  rw [if_neg (not_lt.mpr hle), if_neg (not_lt.mpr hge)]
  unfold pyRoundE to_fixed_point
  rw [pow2_natCast]

/-- A list of finite, in-range inputs is quantized without an exception. -/
lemma mnist_image_to_fixed_pointE_ok (data : List ℚ)
    (h : ∀ q ∈ data, |q| * (2:ℚ) ^ (16:ℕ) ≤ maxFloat) :
    mnist_image_to_fixed_pointE (data.map PyFloat.finite) =
      Except.ok (mnist_image_to_fixed_point data) := by
  induction data with
  | nil => rfl
  | cons q rest ih =>
    have hq := h q (List.mem_cons_self q rest)
    have hrest : ∀ r ∈ rest, |r| * (2:ℚ) ^ (16:ℕ) ≤ maxFloat :=
      fun r hr => h r (List.mem_cons_of_mem q hr)
    show mnist_image_to_fixed_pointE (PyFloat.finite q :: rest.map PyFloat.finite) = _
    unfold mnist_image_to_fixed_pointE
    rw [to_fixed_pointE_ok q 16 hq, ih hrest]
    rfl

/-- Ties are sent to the even neighbour. -/
lemma pyRound_tie (k : ℤ) : pyRound ((k : ℚ) + 1/2) = if k % 2 = 0 then k else k + 1 := by
  have hf : ⌊(k : ℚ) + 1/2⌋ = k := by
    rw [Int.floor_eq_iff]
    constructor
    · linarith
    · linarith

  unfold pyRound
  rw [hf]
  have hfrac : (k : ℚ) + 1/2 - k = 1/2 := by ring
  rw [hfrac]
  rw [if_neg (lt_irrefl (1/2 : ℚ)), if_neg (lt_irrefl (1/2 : ℚ))]

/-! ## Claims -/

/-- Claim C1: for every value `val` and every integer `bits`,
`to_fixed_point(val, bits)` is the fixed-point quantization of `val` with
`bits` fractional bits — the rounding of `val * 2**bits` to a nearest
integer (within one half of it, and no integer is closer); and
`mnist_image_to_fixed_point` quantizes each pixel with `bits = 16`. -/
theorem C1_to_fixed_point_quantizes :
    (∀ (val : ℚ) (bits : ℤ),
      |(to_fixed_point val bits : ℚ) - val * pow2 bits| ≤ 1/2 ∧
      ∀ n : ℤ, |(to_fixed_point val bits : ℚ) - val * pow2 bits| ≤ |(n : ℚ) - val * pow2 bits|) ∧
    ∀ data : List ℚ, mnist_image_to_fixed_point data = data.map (fun val => to_fixed_point val 16) :=
  ⟨fun val bits =>
    ⟨pyRound_dist (val * pow2 bits), fun n => pyRound_nearest (val * pow2 bits) n⟩,
   fun _ => rfl⟩

/-- Claim C2: `generate_input_cairo` returns the `",\n "`-separated
concatenation, in input order, of one literal
`FixedTrait::<FP16x16>::new({v}, {s})` per element, with
`v = to_fixed_point(element, 16)` and `s = "true"` iff `v < 0`. -/
theorem C2_serializes_quantizations :
    ∀ data : List ℚ, generate_input_cairo data = generate_input_cairo_spec data := by
  intro data
  unfold generate_input_cairo generate_input_cairo_spec mnist_image_to_fixed_point
  rw [List.map_map]
  rfl

/-- Claim C3 counterexample: the quantization functions can raise — on the
float NaN, `round` raises `ValueError`, so `to_fixed_point` and
`generate_input_cairo` both end in the error branch. -/
theorem C3_counterexample :
    to_fixed_pointE PyFloat.nan 16 = Except.error nanMsg ∧
    generate_input_cairoE [PyFloat.nan] = Except.error nanMsg :=
  ⟨rfl, rfl⟩

/-- Claim C3 as amended: on every finite input whose scaled value stays
within the finite double range, `to_fixed_point`,
`mnist_image_to_fixed_point` and `generate_input_cairo` complete and return
a value — the error branch is reachable only for NaN, infinite, or
overflowing inputs. -/
theorem C3_no_error_on_finite :
    (∀ (q : ℚ) (bits : ℕ), |q| * (2:ℚ) ^ bits ≤ maxFloat →
      to_fixed_pointE (PyFloat.finite q) bits = Except.ok (to_fixed_point q (bits : ℤ))) ∧
    ∀ data : List ℚ, (∀ q ∈ data, |q| * (2:ℚ) ^ (16:ℕ) ≤ maxFloat) →
      mnist_image_to_fixed_pointE (data.map PyFloat.finite) =
        Except.ok (mnist_image_to_fixed_point data) ∧
      generate_input_cairoE (data.map PyFloat.finite) =
        Except.ok (generate_input_cairo data) := by
  refine ⟨to_fixed_pointE_ok, fun data h => ?_⟩
  have hm := mnist_image_to_fixed_pointE_ok data h
  refine ⟨hm, ?_⟩
  unfold generate_input_cairoE
  rw [hm]
  rfl

theorem C3_no_error_on_finite_witness :
    to_fixed_pointE (PyFloat.finite (1/2)) 16 = Except.ok (to_fixed_point (1/2) ((16:ℕ) : ℤ)) ∧
    generate_input_cairoE ([(1:ℚ)/2].map PyFloat.finite) =
      Except.ok (generate_input_cairo [(1:ℚ)/2]) :=
  ⟨C3_no_error_on_finite.1 (1/2) 16 (by decide),
   (C3_no_error_on_finite.2 [(1:ℚ)/2] (by
      intro q hq
      rw [List.mem_singleton] at hq
      subst hq
      decide)).2⟩

/-- Claim C4: the three functions are pure — their results depend only on
their arguments and not on the outside state, so two evaluations against
any two worlds agree. -/
theorem C4_pure_functions :
    ∀ (val : ℚ) (bits : ℤ) (data : List ℚ) (w w' : World),
      (to_fixed_pointW val bits w).1 = (to_fixed_pointW val bits w').1 ∧
      (mnist_image_to_fixed_pointW data w).1 = (mnist_image_to_fixed_pointW data w').1 ∧
      (generate_input_cairoW data w).1 = (generate_input_cairoW data w').1 :=
  fun _ _ _ _ _ => ⟨rfl, rfl, rfl⟩

/-- Claim C5: the three functions have no effects — they modify no global
binding and write no file, leaving the whole outside world unchanged. -/
theorem C5_no_observable_effects :
    ∀ (val : ℚ) (bits : ℤ) (data : List ℚ) (w : World),
      (to_fixed_pointW val bits w).2 = w ∧
      (mnist_image_to_fixed_pointW data w).2 = w ∧
      (generate_input_cairoW data w).2 = w :=
  fun _ _ _ _ => ⟨rfl, rfl, rfl⟩

/-- Claim C6: when the 16-bit quantization `v` of an element is negative,
the emitted literal embeds the signed decimal numeral of `v` itself (a
minus sign followed by the magnitude) together with the flag `"true"`, and
the minus sign appears exactly when the flag is `"true"`. -/
theorem C6_signed_value_in_literal :
    ∀ val : ℚ,
      (to_fixed_point val 16 < 0 →
        generate_input_cairo [val] =
          "FixedTrait::<FP16x16>::new(-" ++
            (Nat.repr (to_fixed_point val 16).natAbs ++ ", true)")) ∧
      (0 ≤ to_fixed_point val 16 →
        generate_input_cairo [val] =
          "FixedTrait::<FP16x16>::new(" ++
            (Nat.repr (to_fixed_point val 16).natAbs ++ ", false)")) := by
  intro val
  have hsingle : generate_input_cairo [val] = fixedLiteral (to_fixed_point val 16) := rfl
  exact ⟨fun h => by rw [hsingle, fixedLiteral_neg _ h],
         fun h => by rw [hsingle, fixedLiteral_nonneg _ h]⟩

theorem C6_signed_value_in_literal_witness :
    generate_input_cairo [-(1:ℚ)/2] =
      "FixedTrait::<FP16x16>::new(-" ++
        (Nat.repr (to_fixed_point (-(1:ℚ)/2) 16).natAbs ++ ", true)") ∧
    generate_input_cairo [(1:ℚ)/2] =
      "FixedTrait::<FP16x16>::new(" ++
        (Nat.repr (to_fixed_point ((1:ℚ)/2) 16).natAbs ++ ", false)") :=
  ⟨(C6_signed_value_in_literal (-(1:ℚ)/2)).1 (by decide),
   (C6_signed_value_in_literal ((1:ℚ)/2)).2 (by decide)⟩

/-- Claim C7: quantization rounds ties half-to-even — whenever
`val * 2**bits` is exactly halfway between two integers, `to_fixed_point`
returns the even neighbour; in particular `round(0.5) = 0`,
`round(1.5) = 2`, and `round(2.5) = 2` (not the `3` of round-half-up). -/
theorem C7_ties_to_even :
    (∀ (val : ℚ) (bits : ℤ) (k : ℤ), val * pow2 bits = (k : ℚ) + 1/2 →
      to_fixed_point val bits = (if k % 2 = 0 then k else k + 1) ∧
        2 ∣ to_fixed_point val bits) ∧
    to_fixed_point (1/2) 0 = 0 ∧ to_fixed_point (3/2) 0 = 2 ∧ to_fixed_point (5/2) 0 = 2 := by
  refine ⟨?_, by decide, by decide, by decide⟩
  intro val bits k h
  have hr : to_fixed_point val bits = if k % 2 = 0 then k else k + 1 := by
    unfold to_fixed_point
    rw [h, pyRound_tie]
  refine ⟨hr, ?_⟩
  rw [hr]
  rcases Int.emod_two_eq_zero_or_one k with he | ho
  · rw [if_pos he]
    omega
  · rw [if_neg (by rw [ho]; exact one_ne_zero)]
    omega

theorem C7_ties_to_even_witness :
    to_fixed_point (1/2) 0 = (if (0:ℤ) % 2 = 0 then (0:ℤ) else 0 + 1) ∧
    2 ∣ to_fixed_point (1/2) 0 :=
  C7_ties_to_even.1 (1/2) 0 0 (by decide)

/-- Claim C8: quantization and serialization preserve length and order —
`mnist_image_to_fixed_point` maps the `i`-th input to the `i`-th output,
`generate_input_cairo` joins exactly one literal per element in input
order, and the empty input yields the empty string. -/
theorem C8_length_and_order :
    ∀ data : List ℚ,
      (mnist_image_to_fixed_point data).length = data.length ∧
      (∀ i : ℕ, (mnist_image_to_fixed_point data)[i]? =
        (data[i]?).map (fun val => to_fixed_point val 16)) ∧
      ((mnist_image_to_fixed_point data).map fixedLiteral).length = data.length ∧
      generate_input_cairo data =
        String.intercalate sepNL ((mnist_image_to_fixed_point data).map fixedLiteral) ∧
      generate_input_cairo [] = "" := by
  intro data
  refine ⟨by simp [mnist_image_to_fixed_point],
    fun i => by simp [mnist_image_to_fixed_point],
    by simp [mnist_image_to_fixed_point], rfl, rfl⟩

